import Mathlib

/-!
Shallow embedding of the Raiden Monitoring Service channel state machine and
action executor (`src/src/monitoring_service/handlers.py`) together with the
data model it operates on.  Addresses, hashes, block numbers and nonces are
modelled as `Nat`; the database is an explicit record of lists; fallible
handlers return `Option`.
-/

namespace RaidenMS

/-- Modelled from the spec: channel lifecycle states (`raiden_contracts.constants.ChannelState`,
not present in the sources): `state ∈ {OPENED, CLOSED, SETTLED}`. -/
inductive ChannelState where
  | OPENED
  | CLOSED
  | SETTLED
deriving DecidableEq, Repr

/-- Modelled from the spec (`monitoring_service/states.py` is missing):
`OnChainUpdateStatus = {update_sender_address, nonce}`, tracking the latest
known on-chain balance-proof update for a channel. -/
structure OnChainUpdateStatus where
  update_sender_address : Nat
  nonce : Nat
deriving DecidableEq, Repr

/-- Modelled from the spec (`monitoring_service/states.py` is missing):
a `Channel` with identity `(token_network_address, identifier)`, the ordered
participant pair, `settle_timeout`, state, and the optional attributes
`closing_block`, `closing_participant`, `update_status`, `closing_tx_hash`,
`claim_tx_hash`.  A freshly opened channel is `OPENED` with all optionals
absent. -/
structure Channel where
  token_network_address : Nat
  identifier : Nat
  participant1 : Nat
  participant2 : Nat
  settle_timeout : Nat
  state : ChannelState := ChannelState.OPENED
  closing_block : Option Nat := none
  closing_participant : Option Nat := none
  update_status : Option OnChainUpdateStatus := none
  closing_tx_hash : Option Nat := none
  claim_tx_hash : Option Nat := none
deriving DecidableEq, Repr

/-- Modelled from the spec: `channel.participants` is the participant pair. -/
def Channel.participants (c : Channel) : List Nat :=
  [c.participant1, c.participant2]

/-- Modelled from the spec (`monitoring_service/states.py` is missing):
a stored `MonitorRequest` with identity
`(token_network_address, channel_identifier, non_closing_signer)`, the balance
proof fields, the reward fields, and the derived `signer` /
`non_closing_signer` addresses. -/
structure MonitorRequest where
  token_network_address : Nat
  channel_identifier : Nat
  balance_hash : Nat
  nonce : Nat
  additional_hash : Nat
  closing_signature : Nat
  non_closing_signature : Nat
  reward_amount : Nat
  reward_proof_signature : Nat
  signer : Nat
  non_closing_signer : Nat
deriving DecidableEq, Repr

/-- The two triggered-action event kinds scheduled by the handlers
(`ActionMonitoringTriggeredEvent` / `ActionClaimRewardTriggeredEvent` from
`monitoring_service/events.py`, modelled from the spec:
`action ∈ \x7bMONITOR(tn,cid,np), CLAIM_REWARD(tn,cid,np)\x7d`). -/
inductive TriggeredEvent where
  | actionMonitoringTriggeredEvent
      (token_network_address channel_identifier non_closing_participant : Nat)
  | actionClaimRewardTriggeredEvent
      (token_network_address channel_identifier non_closing_participant : Nat)
deriving DecidableEq, Repr

/-- Modelled from the spec: `ScheduledEvent = {trigger_block_number, action}`,
unique on the full tuple. -/
structure ScheduledEvent where
  trigger_block_number : Nat
  event : TriggeredEvent
deriving DecidableEq, Repr

/-- The persistent database state the handlers read and write (channels,
monitor requests, scheduled events, waiting transactions, and the blockchain
state's `latest_known_block`); modelled from the spec since
`monitoring_service/database.py` is missing. -/
structure MSDB where
  channels : List Channel
  monitor_requests : List MonitorRequest
  scheduled_events : List ScheduledEvent
  waiting_transactions : List Nat
  latest_known_block : Nat
deriving DecidableEq, Repr

/-- Modelled from the spec: `DEFAULT_PAYMENT_RISK_FAKTOR = 2` (the
`RISK_FACTOR` of the monitor gate; `monitoring_service/constants.py` is
missing). -/
def DEFAULT_PAYMENT_RISK_FAKTOR : Nat := 2

/-- Modelled from the spec: `round(settle_timeout × R)` with monitor-window
ratio `R = 0.8` (`RATIO_OF_SETTLE_TIMEOUT_BEFORE_MONITOR`;
`monitoring_service/constants.py` is missing).  The fractional part of
`4·st/5` is never one half, so round-to-nearest equals `(4·st + 2) / 5`. -/
def client_update_period (settle_timeout : Nat) : Nat :=
  (4 * settle_timeout + 2) / 5

/-- Whether a stored channel has the given identity. -/
def chan_key (c : Channel) (tna cid : Nat) : Bool :=
  decide (c.token_network_address = tna ∧ c.identifier = cid)

/-- `db.get_channel(token_network_address, channel_id)`: first stored channel
with the given identity. -/
def get_channel (db : MSDB) (tna cid : Nat) : Option Channel :=
  db.channels.find? (fun c => chan_key c tna cid)

/-- Replace the first channel with the same identity, or append. -/
def upsertChannelList : List Channel → Channel → List Channel
  | [], c => [c]
  | c' :: rest, c =>
      if chan_key c' c.token_network_address c.identifier then
        c :: rest
      else
        c' :: upsertChannelList rest c

/-- `db.upsert_channel(c)`: insert or replace by identity. -/
def upsert_channel (db : MSDB) (c : Channel) : MSDB :=
  { db with channels := upsertChannelList db.channels c }

/-- `db.upsert_scheduled_event(se)`: idempotent on the full tuple. -/
def upsert_scheduled_event (db : MSDB) (se : ScheduledEvent) : MSDB :=
  if se ∈ db.scheduled_events then db
  else { db with scheduled_events := db.scheduled_events ++ [se] }

/-- `db.get_monitor_request(token_network_address, channel_id, non_closing_signer)`. -/
def get_monitor_request (db : MSDB) (tna cid ncs : Nat) : Option MonitorRequest :=
  db.monitor_requests.find?
    (fun mr =>
      decide (mr.token_network_address = tna ∧ mr.channel_identifier = cid ∧
        mr.non_closing_signer = ncs))

/-- `db.add_waiting_transaction(tx_hash)`. -/
def add_waiting_transaction (db : MSDB) (h : Nat) : MSDB :=
  { db with waiting_transactions := db.waiting_transactions ++ [h] }

/-- `channel_opened_event_handler` (handlers.py lines 54-70): upsert a fresh
`OPENED` channel with the event's identity, participants and settle timeout. -/
def channel_opened_event_handler (tna cid p1 p2 st : Nat) (db : MSDB) : MSDB :=
  upsert_channel db
    { token_network_address := tna
      identifier := cid
      participant1 := p1
      participant2 := p2
      settle_timeout := st }

/-- `channel_closed_event_handler` (handlers.py lines 73-135).  `lastKnown` is
`context.last_known_block`; `bn` the event's block number, `closing` its
closing participant.  If the channel is unknown the event is dropped.
Otherwise, unless the settle period end `bn + settle_timeout` is already below
`lastKnown`, a MONITOR action is scheduled at
`bn + round(settle_timeout * 0.8)` for the non-closing participant; in either
case the channel becomes CLOSED with `closing_block` and `closing_participant`
recorded. -/
def channel_closed_event_handler (tna cid closing bn lastKnown : Nat) (db : MSDB) : MSDB :=
  match get_channel db tna cid with
  | none => db
  | some channel =>
      let settle_period_end_block := bn + channel.settle_timeout
      let settle_period_over := settle_period_end_block < lastKnown
      let db1 :=
        if settle_period_over then db
        else
          let non_closing_participant :=
            if channel.participant1 = closing then channel.participant2
            else channel.participant1
          let trigger_block := bn + client_update_period channel.settle_timeout
          upsert_scheduled_event db
            { trigger_block_number := trigger_block
              event := TriggeredEvent.actionMonitoringTriggeredEvent
                channel.token_network_address channel.identifier non_closing_participant }
      upsert_channel db1
        { channel with
            state := ChannelState.CLOSED
            closing_block := some bn
            closing_participant := some closing }

/-- `non_closing_balance_proof_updated_event_handler` (handlers.py lines
138-203).  Drops the event when the channel is unknown or the closing
participant matches neither stored participant.  Creates `update_status` with
the non-closing participant as sender when absent; otherwise updates it only
when `event.nonce` is strictly greater than the stored nonce. -/
def non_closing_balance_proof_updated_event_handler
    (tna cid closing nonce : Nat) (db : MSDB) : MSDB :=
  match get_channel db tna cid with
  | none => db
  | some channel =>
      if closing = channel.participant1 then
        let non_closing_participant := channel.participant2
        match channel.update_status with
        | none =>
            let us : OnChainUpdateStatus :=
              { update_sender_address := non_closing_participant, nonce := nonce }
            upsert_channel db { channel with update_status := some us }
        | some status =>
            if nonce ≤ status.nonce then db
            else
              let us : OnChainUpdateStatus :=
                { update_sender_address := non_closing_participant, nonce := nonce }
              upsert_channel db { channel with update_status := some us }
      else if closing = channel.participant2 then
        let non_closing_participant := channel.participant1
        match channel.update_status with
        | none =>
            let us : OnChainUpdateStatus :=
              { update_sender_address := non_closing_participant, nonce := nonce }
            upsert_channel db { channel with update_status := some us }
        | some status =>
            if nonce ≤ status.nonce then db
            else
              let us : OnChainUpdateStatus :=
                { update_sender_address := non_closing_participant, nonce := nonce }
              upsert_channel db { channel with update_status := some us }
      else db

/-- `channel_settled_event_handler` (handlers.py lines 206-227): if the channel
is stored, set its state to SETTLED (all other attributes are kept). -/
def channel_settled_event_handler (tna cid : Nat) (db : MSDB) : MSDB :=
  match get_channel db tna cid with
  | none => db
  | some channel => upsert_channel db { channel with state := ChannelState.SETTLED }

/-- `monitor_new_balance_proof_event_handler` (handlers.py lines 230-307).
Creates or updates `update_status` with `sender = ms_address`, dropping the
event only when `event.nonce` is strictly below the stored nonce.  When
`ms_address` is our own address, asserts `closing_block` is set (an
`AssertionError`, modelled as `none`) and schedules a CLAIM_REWARD action at
`closing_block + settle_timeout + 5` for the event's raiden node address. -/
def monitor_new_balance_proof_event_handler
    (tna cid nonce ms_address raiden_node_address our_address : Nat)
    (db : MSDB) : Option MSDB :=
  match get_channel db tna cid with
  | none => some db
  | some channel =>
      let scheduleClaim : Channel → MSDB → Option MSDB := fun ch db1 =>
        if ms_address = our_address then
          match ch.closing_block with
          | none => none
          | some cb =>
              some (upsert_scheduled_event db1
                { trigger_block_number := cb + ch.settle_timeout + 5
                  event := TriggeredEvent.actionClaimRewardTriggeredEvent
                    ch.token_network_address ch.identifier raiden_node_address })
        else some db1
      match channel.update_status with
      | none =>
          let us : OnChainUpdateStatus := { update_sender_address := ms_address, nonce := nonce }
          let ch := { channel with update_status := some us }
          scheduleClaim ch (upsert_channel db ch)
      | some status =>
          if nonce < status.nonce then some db
          else
            let us : OnChainUpdateStatus := { update_sender_address := ms_address, nonce := nonce }
            let ch := { channel with update_status := some us }
            scheduleClaim ch (upsert_channel db ch)

/-- `monitor_reward_claim_event_handler` (handlers.py lines 310-312): log only. -/
def monitor_reward_claim_event_handler (db : MSDB) : MSDB := db

/-- `updated_head_block_event_handler` (handlers.py lines 315-319): commit the
event's head block number as `latest_known_block`, unconditionally. -/
def updated_head_block_event_handler (head_block_number : Nat) (db : MSDB) : MSDB :=
  { db with latest_known_block := head_block_number }

/-- `_is_mr_valid` (handlers.py lines 322-334): both recovered signers must be
channel participants and must differ. -/
def is_mr_valid (monitor_request : MonitorRequest) (channel : Channel) : Bool :=
  if monitor_request.signer ∉ channel.participants ∨
      monitor_request.non_closing_signer ∉ channel.participants then false
  else if monitor_request.signer = monitor_request.non_closing_signer then false
  else true

/-- `last_onchain_nonce` as computed in handlers.py lines 359-361:
`channel.update_status.nonce`, or `0` when `update_status` is absent. -/
def last_onchain_nonce (channel : Channel) : Nat :=
  match channel.update_status with
  | some status => status.nonce
  | none => 0

/-- `action_monitoring_triggered_event_handler` (handlers.py lines 337-409).
`user_deposit` models the `effectiveBalance` RPC answer for the request's
non-closing signer; `txResult` models the `monitor(...)` transaction call:
`some h` is a returned transaction hash, `none` a raised RPC exception (caught
by the handler, leaving the database untouched).  The returned `Bool` records
whether the transaction was submitted (`call_monitor` held and `transact` was
invoked). -/
def action_monitoring_triggered_event_handler
    (tna cid non_closing_participant min_reward user_deposit : Nat)
    (txResult : Option Nat) (db : MSDB) : MSDB × Bool :=
  match get_monitor_request db tna cid non_closing_participant with
  | none => (db, false)
  | some monitor_request =>
      match get_channel db monitor_request.token_network_address
          monitor_request.channel_identifier with
      | none => (db, false)
      | some channel =>
          if is_mr_valid monitor_request channel = false then (db, false)
          else
            let call_monitor :=
              channel.closing_tx_hash = none ∧
                monitor_request.nonce > last_onchain_nonce channel ∧
                user_deposit ≥ monitor_request.reward_amount * DEFAULT_PAYMENT_RISK_FAKTOR ∧
                monitor_request.reward_amount ≥ min_reward
            if call_monitor then
              match txResult with
              | none => (db, true)
              | some tx_hash =>
                  let db1 := add_waiting_transaction db tx_hash
                  (upsert_channel db1 { channel with closing_tx_hash := some tx_hash }, true)
            else (db, false)

/-- `action_claim_reward_triggered_event_handler` (handlers.py lines 412-473).
`txResult` models the `claimReward(...)` transaction call as above; the
returned `Bool` records whether the transaction was submitted (`can_claim`
and `has_reward` held). -/
def action_claim_reward_triggered_event_handler
    (tna cid non_closing_participant our_address : Nat)
    (txResult : Option Nat) (db : MSDB) : MSDB × Bool :=
  match get_monitor_request db tna cid non_closing_participant with
  | none => (db, false)
  | some monitor_request =>
      match get_channel db monitor_request.token_network_address
          monitor_request.channel_identifier with
      | none => (db, false)
      | some channel =>
          let can_claim :=
            channel.claim_tx_hash = none ∧
              ∃ status, channel.update_status = some status ∧
                status.update_sender_address = our_address
          let has_reward := monitor_request.reward_amount > 0
          if can_claim ∧ has_reward then
            match txResult with
            | none => (db, true)
            | some tx_hash =>
                let db1 := add_waiting_transaction db tx_hash
                (upsert_channel db1 { channel with claim_tx_hash := some tx_hash }, true)
          else (db, false)

/-- The events dispatched through `HANDLERS` (handlers.py lines 476-486), each
carrying the data its handler reads.  The chain-closed event also carries the
`context.last_known_block` the handler compares against; the two action events
carry the environment answers of their RPC calls (`user_deposit`, `txResult`). -/
inductive MSEvent where
  | chOpened (tna cid p1 p2 st : Nat)
  | chClosed (tna cid closing bn lastKnown : Nat)
  | bpUpdated (tna cid closing nonce : Nat)
  | chSettled (tna cid : Nat)
  | newBalanceProof (tna cid nonce ms_address raiden_node_address : Nat)
  | rewardClaimed
  | headBlock (bn : Nat)
  | actMonitor (tna cid np min_reward user_deposit : Nat) (txResult : Option Nat)
  | actClaim (tna cid np : Nat) (txResult : Option Nat)
deriving DecidableEq, Repr

/-- Dispatch one event to its handler (the `HANDLERS` table); `none` models an
uncaught `AssertionError`.  `our_address` is the monitoring service's own
address (`context.ms_state.address`). -/
def processEvent (our_address : Nat) (db : MSDB) : MSEvent → Option MSDB
  | .chOpened tna cid p1 p2 st => some (channel_opened_event_handler tna cid p1 p2 st db)
  | .chClosed tna cid closing bn lastKnown =>
      some (channel_closed_event_handler tna cid closing bn lastKnown db)
  | .bpUpdated tna cid closing nonce =>
      some (non_closing_balance_proof_updated_event_handler tna cid closing nonce db)
  | .chSettled tna cid => some (channel_settled_event_handler tna cid db)
  | .newBalanceProof tna cid nonce ms raiden =>
      monitor_new_balance_proof_event_handler tna cid nonce ms raiden our_address db
  | .rewardClaimed => some (monitor_reward_claim_event_handler db)
  | .headBlock bn => some (updated_head_block_event_handler bn db)
  | .actMonitor tna cid np mr ud tx =>
      some (action_monitoring_triggered_event_handler tna cid np mr ud tx db).1
  | .actClaim tna cid np tx =>
      some (action_claim_reward_triggered_event_handler tna cid np our_address tx db).1

/-- Process a sequence of events in order, stopping at an assertion failure. -/
def processEvents (our_address : Nat) (db : MSDB) : List MSEvent → Option MSDB
  | [] => some db
  | e :: es =>
      match processEvent our_address db e with
      | none => none
      | some db1 => processEvents our_address db1 es

/-- The `update_status` of the stored channel with the given identity, if any. -/
def channel_update_status (db : MSDB) (tna cid : Nat) : Option OnChainUpdateStatus :=
  match get_channel db tna cid with
  | some c => c.update_status
  | none => none

theorem chan_key_self (c : Channel) :
    chan_key c c.token_network_address c.identifier = true := by
  simp [chan_key]

theorem chan_key_eq_true {c : Channel} {tna cid : Nat} :
    chan_key c tna cid = true ↔ (c.token_network_address = tna ∧ c.identifier = cid) := by
  simp [chan_key]

/-- A channel returned by `get_channel` carries the queried identity. -/
theorem get_channel_key {db : MSDB} {tna cid : Nat} {c : Channel}
    (h : get_channel db tna cid = some c) :
    c.token_network_address = tna ∧ c.identifier = cid := by
  have h' := List.find?_some h
  exact chan_key_eq_true.mp h'

/-- A channel returned by `get_channel` is stored in the database. -/
theorem get_channel_mem {db : MSDB} {tna cid : Nat} {c : Channel}
    (h : get_channel db tna cid = some c) : c ∈ db.channels :=
  List.mem_of_find?_eq_some h

theorem find?_upsertChannelList (l : List Channel) (c : Channel) :
    (upsertChannelList l c).find?
      (fun c' => chan_key c' c.token_network_address c.identifier) = some c := by
  induction l with
  | nil => simp [upsertChannelList, chan_key_self]
  | cons c' rest ih =>
      by_cases h : chan_key c' c.token_network_address c.identifier = true
      · simp [upsertChannelList, h, chan_key_self]
      · simp [upsertChannelList, h, ih]

/-- Looking up the identity just upserted returns the upserted channel. -/
theorem get_channel_upsert_self (db : MSDB) (c : Channel) :
    get_channel (upsert_channel db c) c.token_network_address c.identifier = some c := by
  simpa only [get_channel, upsert_channel] using find?_upsertChannelList db.channels c

theorem find?_upsertChannelList_ne (l : List Channel) (c : Channel) (tna cid : Nat)
    (h : ¬(c.token_network_address = tna ∧ c.identifier = cid)) :
    (upsertChannelList l c).find? (fun c' => chan_key c' tna cid) =
      l.find? (fun c' => chan_key c' tna cid) := by
  have hc : ¬(chan_key c tna cid = true) := by
    rw [chan_key_eq_true]; exact h
  induction l with
  | nil => simp [upsertChannelList, hc]
  | cons c' rest ih =>
      by_cases hk : chan_key c' c.token_network_address c.identifier = true
      · have hkey := chan_key_eq_true.mp hk
        have hc' : ¬(chan_key c' tna cid = true) := by
          rw [chan_key_eq_true, hkey.1, hkey.2]; exact h
        simp [upsertChannelList, hk, hc, hc']
      · by_cases hq : chan_key c' tna cid = true
        · simp [upsertChannelList, hk, hq]
        · simp [upsertChannelList, hk, hq, ih]

/-- Upserting a channel does not change lookups of other identities. -/
theorem get_channel_upsert_ne (db : MSDB) (c : Channel) (tna cid : Nat)
    (h : ¬(c.token_network_address = tna ∧ c.identifier = cid)) :
    get_channel (upsert_channel db c) tna cid = get_channel db tna cid := by
  simpa only [get_channel, upsert_channel] using
    find?_upsertChannelList_ne db.channels c tna cid h

/-- Every member of an upserted channel list is the new channel or an old one. -/
theorem mem_upsertChannelList {l : List Channel} {c c' : Channel}
    (h : c' ∈ upsertChannelList l c) : c' = c ∨ c' ∈ l := by
  induction l with
  | nil => simpa [upsertChannelList] using h
  | cons c0 rest ih =>
      by_cases hk : chan_key c0 c.token_network_address c.identifier = true
      · simp only [upsertChannelList, if_pos hk] at h
        rcases List.mem_cons.mp h with h | h
        · exact Or.inl h
        · exact Or.inr (List.mem_cons_of_mem _ h)
      · simp only [upsertChannelList, if_neg hk] at h
        rcases List.mem_cons.mp h with h | h
        · exact Or.inr (h ▸ List.mem_cons_self _ _)
        · rcases ih h with h | h
          · exact Or.inl h
          · exact Or.inr (List.mem_cons_of_mem _ h)

theorem channels_upsert_scheduled (db : MSDB) (se : ScheduledEvent) :
    (upsert_scheduled_event db se).channels = db.channels := by
  unfold upsert_scheduled_event
  split <;> rfl

theorem get_channel_upsert_scheduled (db : MSDB) (se : ScheduledEvent) (tna cid : Nat) :
    get_channel (upsert_scheduled_event db se) tna cid = get_channel db tna cid := by
  unfold get_channel
  rw [channels_upsert_scheduled]

theorem latest_upsert_channel (db : MSDB) (c : Channel) :
    (upsert_channel db c).latest_known_block = db.latest_known_block := rfl

theorem latest_upsert_scheduled (db : MSDB) (se : ScheduledEvent) :
    (upsert_scheduled_event db se).latest_known_block = db.latest_known_block := by
  unfold upsert_scheduled_event
  split <;> rfl

theorem latest_add_waiting (db : MSDB) (h : Nat) :
    (add_waiting_transaction db h).latest_known_block = db.latest_known_block := rfl

/-- Membership in the scheduled-event list after an upsert. -/
theorem mem_upsert_scheduled {db : MSDB} {se se' : ScheduledEvent} :
    se' ∈ (upsert_scheduled_event db se).scheduled_events ↔
      se' ∈ db.scheduled_events ∨ se' = se := by
  unfold upsert_scheduled_event
  split
  · constructor
    · exact fun h => Or.inl h
    · rintro (h | rfl)
      · exact h
      · assumption
  · simp

/-- The empty initial database state. -/
def emptyDB : MSDB :=
  { channels := []
    monitor_requests := []
    scheduled_events := []
    waiting_transactions := []
    latest_known_block := 0 }

/-- Claim C1: a fired MONITOR action submits the monitor transaction if and
only if the monitor request and channel are present, the request is valid for
the channel's participant pair, and the four gate conditions hold:
`closing_tx_hash` unset, `mr.nonce > last_onchain_nonce`,
`user_deposit ≥ mr.reward_amount * RISK_FACTOR` (so in particular no monitor
transaction when `user_deposit < reward_amount * 2`), and
`mr.reward_amount ≥ min_reward`. -/
theorem monitor_tx_submitted_iff_gate
    (tna cid np min_reward user_deposit : Nat) (txResult : Option Nat) (db : MSDB) :
    (action_monitoring_triggered_event_handler tna cid np min_reward user_deposit
        txResult db).2 = true ↔
      ∃ mr, get_monitor_request db tna cid np = some mr ∧
        ∃ ch, get_channel db mr.token_network_address mr.channel_identifier = some ch ∧
          is_mr_valid mr ch = true ∧
          ch.closing_tx_hash = none ∧
          last_onchain_nonce ch < mr.nonce ∧
          mr.reward_amount * DEFAULT_PAYMENT_RISK_FAKTOR ≤ user_deposit ∧
          min_reward ≤ mr.reward_amount := by
  unfold action_monitoring_triggered_event_handler
  cases hmr : get_monitor_request db tna cid np with
  | none => simp [hmr]
  | some mr =>
      cases hch : get_channel db mr.token_network_address mr.channel_identifier with
      | none => simp [hmr, hch]
      | some ch =>
          by_cases hv : is_mr_valid mr ch = false
          · have : ¬ is_mr_valid mr ch = true := by simp [hv]
            simp [hmr, hch, hv, this]
          · have hv' : is_mr_valid mr ch = true := by
              cases hiv : is_mr_valid mr ch
              · exact absurd hiv hv
              · rfl
            by_cases hg : (ch.closing_tx_hash = none ∧
                last_onchain_nonce ch < mr.nonce ∧
                mr.reward_amount * DEFAULT_PAYMENT_RISK_FAKTOR ≤ user_deposit ∧
                min_reward ≤ mr.reward_amount)
            · cases txResult <;> simp [hmr, hch, hv, hv', hg]
            · cases txResult <;> simp [hmr, hch, hv, hv', hg]

/-- Claim C6 (amended): a fired CLAIM_REWARD action submits the claimReward
transaction if and only if the monitor request and channel are present,
`claim_tx_hash` is unset, the latest `update_status` exists with
`update_sender_address` equal to the monitoring service's own address, and
`mr.reward_amount > 0`. -/
theorem claim_reward_tx_submitted_iff_gate
    (tna cid np our_address : Nat) (txResult : Option Nat) (db : MSDB) :
    (action_claim_reward_triggered_event_handler tna cid np our_address
        txResult db).2 = true ↔
      ∃ mr, get_monitor_request db tna cid np = some mr ∧
        ∃ ch, get_channel db mr.token_network_address mr.channel_identifier = some ch ∧
          ch.claim_tx_hash = none ∧
          (∃ status, ch.update_status = some status ∧
            status.update_sender_address = our_address) ∧
          0 < mr.reward_amount := by
  unfold action_claim_reward_triggered_event_handler
  cases hmr : get_monitor_request db tna cid np with
  | none => simp [hmr]
  | some mr =>
      cases hch : get_channel db mr.token_network_address mr.channel_identifier with
      | none => simp [hmr, hch]
      | some ch =>
          by_cases hg : ((ch.claim_tx_hash = none ∧
              ∃ status, ch.update_status = some status ∧
                status.update_sender_address = our_address) ∧
              0 < mr.reward_amount)
          · cases txResult <;> · simp [hmr, hch, hg]
          · cases txResult <;>
              · simp [hmr, hch, hg]
                intro h1 x hx hs
                by_contra hr
                exact hg ⟨⟨h1, x, hx, hs⟩, Nat.pos_of_ne_zero hr⟩

/-- A closed channel whose latest update was sent by address 99. -/
def sampleClaimChannel : Channel :=
  { token_network_address := 1
    identifier := 1
    participant1 := 10
    participant2 := 11
    settle_timeout := 20
    state := ChannelState.CLOSED
    closing_block := some 150
    closing_participant := some 10
    update_status := some { update_sender_address := 99, nonce := 5 }
    closing_tx_hash := none
    claim_tx_hash := none }

/-- A stored monitor request for that channel whose reward amount is zero. -/
def sampleZeroRewardMR : MonitorRequest :=
  { token_network_address := 1
    channel_identifier := 1
    balance_hash := 0
    nonce := 5
    additional_hash := 0
    closing_signature := 0
    non_closing_signature := 0
    reward_amount := 0
    reward_proof_signature := 0
    signer := 10
    non_closing_signer := 11 }

/-- A database holding that channel and zero-reward request. -/
def sampleClaimDB : MSDB :=
  { channels := [sampleClaimChannel]
    monitor_requests := [sampleZeroRewardMR]
    scheduled_events := []
    waiting_transactions := []
    latest_known_block := 160 }

/-- Claim C6 (counterexample): with the monitor request and channel present,
`claim_tx_hash` unset and `update_status.update_sender_address` equal to the
monitoring service's own address (99), the fired CLAIM_REWARD action still
does not execute because the request's `reward_amount` is zero, refuting the
claimed equivalence with the sender condition alone. -/
theorem claim_reward_no_tx_despite_our_sender :
    (action_claim_reward_triggered_event_handler 1 1 11 99 (some 77) sampleClaimDB).2 = false ∧
    channel_update_status sampleClaimDB 1 1 =
      some { update_sender_address := 99, nonce := 5 } := by
  exact ⟨by decide, by decide⟩

/-- Claim C7: when the transaction submission raises (modelled by
`txResult = none`), both action handlers leave the whole persistent state
unchanged: no waiting transaction hash is added and the channel keeps its
previous `closing_tx_hash` / `claim_tx_hash`. -/
theorem tx_failure_leaves_state_unchanged
    (tna cid np min_reward user_deposit our_address : Nat) (db : MSDB) :
    (action_monitoring_triggered_event_handler tna cid np min_reward user_deposit
        none db).1 = db ∧
    (action_claim_reward_triggered_event_handler tna cid np our_address
        none db).1 = db := by
  constructor
  · unfold action_monitoring_triggered_event_handler
    split
    · rfl
    · split
      · rfl
      · split
        · rfl
        · dsimp only
          split <;> rfl
  · unfold action_claim_reward_triggered_event_handler
    split
    · rfl
    · split
      · rfl
      · dsimp only
        split <;> rfl

/-- The MONITOR scheduled event built by `channel_closed_event_handler` for a
close of `ch` by `closing` at block `bn`: trigger block
`bn + round(settle_timeout * 0.8)`, targeting the non-closing participant. -/
def monitor_action_for (tna cid closing bn : Nat) (ch : Channel) : ScheduledEvent :=
  { trigger_block_number := bn + client_update_period ch.settle_timeout
    event := TriggeredEvent.actionMonitoringTriggeredEvent tna cid
      (if ch.participant1 = closing then ch.participant2 else ch.participant1) }

/-- Upserting a channel leaves the scheduled events unchanged. -/
theorem scheduled_upsert_channel (db : MSDB) (c : Channel) :
    (upsert_channel db c).scheduled_events = db.scheduled_events := rfl

/-- Claim C2: for a ChannelClosed event whose channel is stored, the handler
sets the channel to CLOSED with the event's `closing_block` and
`closing_participant`; and unless the settle period end
`bn + settle_timeout` is already strictly before the last known block (then
scheduling is skipped and the scheduled events are unchanged), it upserts
exactly one scheduled MONITOR action at
`bn + round(settle_timeout * 0.8)` targeting the non-closing participant. -/
theorem channel_closed_updates_channel_and_schedules
    (db : MSDB) (tna cid closing bn lastKnown : Nat) (ch : Channel)
    (hch : get_channel db tna cid = some ch) :
    get_channel (channel_closed_event_handler tna cid closing bn lastKnown db) tna cid =
      some { ch with state := ChannelState.CLOSED, closing_block := some bn, closing_participant := some closing } ∧
    (if bn + ch.settle_timeout < lastKnown then
        (channel_closed_event_handler tna cid closing bn lastKnown db).scheduled_events =
          db.scheduled_events
      else
        monitor_action_for tna cid closing bn ch ∈
            (channel_closed_event_handler tna cid closing bn lastKnown db).scheduled_events ∧
          ∀ se ∈ (channel_closed_event_handler tna cid closing bn lastKnown db).scheduled_events,
            se ∈ db.scheduled_events ∨ se = monitor_action_for tna cid closing bn ch) := by
  obtain ⟨htna, hcid⟩ := get_channel_key hch
  have hres : channel_closed_event_handler tna cid closing bn lastKnown db =
      upsert_channel
        (if bn + ch.settle_timeout < lastKnown then db
          else upsert_scheduled_event db (monitor_action_for tna cid closing bn ch))
        { ch with state := ChannelState.CLOSED, closing_block := some bn, closing_participant := some closing } := by
    unfold channel_closed_event_handler
    rw [hch]
    dsimp only
    rw [monitor_action_for, htna, hcid]
  rw [hres]
  constructor
  · have h := get_channel_upsert_self
      (if bn + ch.settle_timeout < lastKnown then db
        else upsert_scheduled_event db (monitor_action_for tna cid closing bn ch))
      { ch with state := ChannelState.CLOSED, closing_block := some bn, closing_participant := some closing }
    simpa [htna, hcid] using h
  · by_cases hover : bn + ch.settle_timeout < lastKnown
    · rw [if_pos hover, if_pos hover, scheduled_upsert_channel]
    · rw [if_neg hover, if_neg hover, scheduled_upsert_channel]
      constructor
      · exact mem_upsert_scheduled.mpr (Or.inr rfl)
      · intro se hse
        exact mem_upsert_scheduled.mp hse

/-- An open channel between participants 10 and 11 with settle timeout 20. -/
def sampleOpenChannel : Channel :=
  { token_network_address := 1
    identifier := 1
    participant1 := 10
    participant2 := 11
    settle_timeout := 20 }

/-- A database holding only `sampleOpenChannel`, synced to block 150. -/
def sampleOpenDB : MSDB :=
  { channels := [sampleOpenChannel]
    monitor_requests := []
    scheduled_events := []
    waiting_transactions := []
    latest_known_block := 150 }

/-- Claim C2 (witness): channel `(1,1)` between participants 10 and 11 with
settle timeout 20, closed by 10 at block 150 with last known block 150: the
settle period end 170 is not before 150, so the MONITOR action at block 166
targeting participant 11 is scheduled and the channel becomes CLOSED. -/
theorem channel_closed_updates_channel_and_schedules_witness :
    get_channel sampleOpenDB 1 1 = some sampleOpenChannel ∧
    (get_channel (channel_closed_event_handler 1 1 10 150 150 sampleOpenDB) 1 1 =
      some { sampleOpenChannel with state := ChannelState.CLOSED, closing_block := some 150, closing_participant := some 10 } ∧
    if (150 : Nat) + sampleOpenChannel.settle_timeout < 150 then
        (channel_closed_event_handler 1 1 10 150 150 sampleOpenDB).scheduled_events =
          sampleOpenDB.scheduled_events
      else
        monitor_action_for 1 1 10 150 sampleOpenChannel ∈
            (channel_closed_event_handler 1 1 10 150 150 sampleOpenDB).scheduled_events ∧
          ∀ se ∈ (channel_closed_event_handler 1 1 10 150 150 sampleOpenDB).scheduled_events,
            se ∈ sampleOpenDB.scheduled_events ∨
              se = monitor_action_for 1 1 10 150 sampleOpenChannel) :=
  ⟨by decide,
    channel_closed_updates_channel_and_schedules sampleOpenDB 1 1 10 150 150
      sampleOpenChannel (by decide)⟩

theorem channel_update_status_upsert_self (db : MSDB) (c : Channel) :
    channel_update_status (upsert_channel db c) c.token_network_address c.identifier =
      c.update_status := by
  unfold channel_update_status
  rw [get_channel_upsert_self]

theorem channel_update_status_upsert_scheduled (db : MSDB) (se : ScheduledEvent)
    (tna cid : Nat) :
    channel_update_status (upsert_scheduled_event db se) tna cid =
      channel_update_status db tna cid := by
  unfold channel_update_status
  rw [get_channel_upsert_scheduled]

/-- The CLAIM_REWARD scheduled event built by
`monitor_new_balance_proof_event_handler`: trigger block
`closing_block + settle_timeout + 5`, targeting the raiden node address. -/
def claim_reward_action_for (tna cid raiden cb : Nat) (ch : Channel) : ScheduledEvent :=
  { trigger_block_number := cb + ch.settle_timeout + 5
    event := TriggeredEvent.actionClaimRewardTriggeredEvent tna cid raiden }

/-- Characterization of `non_closing_balance_proof_updated_event_handler` on a
stored channel whose `update_status` is present. -/
theorem ncbpu_result (db : MSDB) (tna cid closing nonce : Nat) (ch : Channel)
    (s : OnChainUpdateStatus)
    (hch : get_channel db tna cid = some ch) (hs : ch.update_status = some s) :
    non_closing_balance_proof_updated_event_handler tna cid closing nonce db =
      (if closing = ch.participant1 then
        (if nonce ≤ s.nonce then db
          else upsert_channel db { ch with update_status := some ⟨ch.participant2, nonce⟩ })
      else if closing = ch.participant2 then
        (if nonce ≤ s.nonce then db
          else upsert_channel db { ch with update_status := some ⟨ch.participant1, nonce⟩ })
      else db) := by
  unfold non_closing_balance_proof_updated_event_handler
  rw [hch]
  dsimp only
  rw [hs]

/-- Characterization of `monitor_new_balance_proof_event_handler` on a stored
channel whose `update_status` is present. -/
theorem mnbp_result (db : MSDB) (tna cid nonce ms raiden our : Nat) (ch : Channel)
    (s : OnChainUpdateStatus)
    (hch : get_channel db tna cid = some ch) (hs : ch.update_status = some s) :
    monitor_new_balance_proof_event_handler tna cid nonce ms raiden our db =
      (if nonce < s.nonce then some db
      else if ms = our then
        match ch.closing_block with
        | none => none
        | some cb =>
            some (upsert_scheduled_event
              (upsert_channel db { ch with update_status := some ⟨ms, nonce⟩ })
              (claim_reward_action_for ch.token_network_address ch.identifier raiden cb ch))
      else some (upsert_channel db { ch with update_status := some ⟨ms, nonce⟩ })) := by
  unfold monitor_new_balance_proof_event_handler
  rw [hch]
  dsimp only
  rw [hs]
  dsimp only [claim_reward_action_for]

/-- Characterization of `monitor_new_balance_proof_event_handler` on a stored
channel whose `update_status` is absent. -/
theorem mnbp_result_none (db : MSDB) (tna cid nonce ms raiden our : Nat) (ch : Channel)
    (hch : get_channel db tna cid = some ch) (hs : ch.update_status = none) :
    monitor_new_balance_proof_event_handler tna cid nonce ms raiden our db =
      (if ms = our then
        match ch.closing_block with
        | none => none
        | some cb =>
            some (upsert_scheduled_event
              (upsert_channel db { ch with update_status := some ⟨ms, nonce⟩ })
              (claim_reward_action_for ch.token_network_address ch.identifier raiden cb ch))
      else some (upsert_channel db { ch with update_status := some ⟨ms, nonce⟩ })) := by
  unfold monitor_new_balance_proof_event_handler
  rw [hch]
  dsimp only
  rw [hs]
  dsimp only [claim_reward_action_for]

/-- Claim C4: with `update_status = some s` stored, a
NonClosingBalanceProofUpdated event updates nonce and sender only for a
strictly greater nonce (equal or smaller leaves the database unchanged),
while a MonitorNewBalanceProof event updates them whenever the nonce is
greater or equal (only a strictly smaller nonce is dropped unchanged). -/
theorem nonce_check_strict_vs_nonstrict
    (db : MSDB) (tna cid closing nonce ms raiden our : Nat) (ch : Channel)
    (s : OnChainUpdateStatus)
    (hch : get_channel db tna cid = some ch)
    (hs : ch.update_status = some s) :
    ((closing = ch.participant1 ∨ closing = ch.participant2) →
      ((nonce ≤ s.nonce →
          non_closing_balance_proof_updated_event_handler tna cid closing nonce db = db) ∧
        (s.nonce < nonce →
          channel_update_status
              (non_closing_balance_proof_updated_event_handler tna cid closing nonce db)
              tna cid =
            some ⟨if closing = ch.participant1 then ch.participant2 else ch.participant1,
              nonce⟩))) ∧
    (nonce < s.nonce →
      monitor_new_balance_proof_event_handler tna cid nonce ms raiden our db = some db) ∧
    (s.nonce ≤ nonce → ∀ db',
      monitor_new_balance_proof_event_handler tna cid nonce ms raiden our db = some db' →
        channel_update_status db' tna cid = some ⟨ms, nonce⟩) ∧
    (s.nonce ≤ nonce → ms ≠ our →
      ∃ db', monitor_new_balance_proof_event_handler tna cid nonce ms raiden our db = some db' ∧
        channel_update_status db' tna cid = some ⟨ms, nonce⟩) := by
  obtain ⟨htna, hcid⟩ := get_channel_key hch
  refine ⟨?_, ?_, ?_, ?_⟩
  · intro hcp
    constructor
    · intro hle
      rw [ncbpu_result db tna cid closing nonce ch s hch hs]
      by_cases h1 : closing = ch.participant1
      · rw [if_pos h1, if_pos hle]
      · rcases hcp with h1' | h2
        · exact absurd h1' h1
        · rw [if_neg h1, if_pos h2, if_pos hle]
    · intro hlt
      have hle : ¬ nonce ≤ s.nonce := by omega
      rw [ncbpu_result db tna cid closing nonce ch s hch hs]
      by_cases h1 : closing = ch.participant1
      · rw [if_pos h1, if_neg hle]
        have h := channel_update_status_upsert_self db
          { ch with update_status := some ⟨ch.participant2, nonce⟩ }
        simpa [h1, htna, hcid] using h
      · rcases hcp with h1' | h2
        · exact absurd h1' h1
        · rw [if_neg h1, if_pos h2, if_neg hle]
          have h := channel_update_status_upsert_self db
            { ch with update_status := some ⟨ch.participant1, nonce⟩ }
          simpa [h1, htna, hcid] using h
  · intro hlt
    rw [mnbp_result db tna cid nonce ms raiden our ch s hch hs, if_pos hlt]
  · intro hge db' hdb'
    have hlt : ¬ nonce < s.nonce := by omega
    rw [mnbp_result db tna cid nonce ms raiden our ch s hch hs, if_neg hlt] at hdb'
    by_cases hms : ms = our
    · rw [if_pos hms] at hdb'
      cases hcb : ch.closing_block with
      | none =>
          rw [hcb] at hdb'
          exact absurd hdb' (by simp)
      | some cb =>
          rw [hcb] at hdb'
          injection hdb' with h
          rw [← h, channel_update_status_upsert_scheduled]
          have h2 := channel_update_status_upsert_self db
            { ch with update_status := some ⟨ms, nonce⟩ }
          simpa [htna, hcid, hcb] using h2
    · rw [if_neg hms] at hdb'
      injection hdb' with h
      rw [← h]
      have h2 := channel_update_status_upsert_self db
        { ch with update_status := some ⟨ms, nonce⟩ }
      simpa [htna, hcid] using h2
  · intro hge hms
    have hlt : ¬ nonce < s.nonce := by omega
    refine ⟨upsert_channel db { ch with update_status := some ⟨ms, nonce⟩ }, ?_, ?_⟩
    · rw [mnbp_result db tna cid nonce ms raiden our ch s hch hs, if_neg hlt, if_neg hms]
    · have h2 := channel_update_status_upsert_self db
        { ch with update_status := some ⟨ms, nonce⟩ }
      simpa [htna, hcid] using h2

/-- `sampleOpenChannel` after an on-chain balance-proof update with nonce 7
sent by participant 11. -/
def sampleStatusChannel : Channel :=
  { sampleOpenChannel with update_status := some ⟨11, 7⟩ }

/-- A database holding only `sampleStatusChannel`, synced to block 150. -/
def sampleStatusDB : MSDB :=
  { channels := [sampleStatusChannel]
    monitor_requests := []
    scheduled_events := []
    waiting_transactions := []
    latest_known_block := 150 }

/-- Claim C4 (witness): on `sampleStatusChannel` (stored nonce 7), events with
nonce 9 from closing participant 10 or from monitoring service 50 exercise
every branch of the nonce rules. -/
theorem nonce_check_strict_vs_nonstrict_witness :
    (get_channel sampleStatusDB 1 1 = some sampleStatusChannel ∧
      sampleStatusChannel.update_status = some ⟨11, 7⟩) ∧
    (((10 = sampleStatusChannel.participant1 ∨ 10 = sampleStatusChannel.participant2) →
      ((9 ≤ 7 →
          non_closing_balance_proof_updated_event_handler 1 1 10 9 sampleStatusDB =
            sampleStatusDB) ∧
        (7 < 9 →
          channel_update_status
              (non_closing_balance_proof_updated_event_handler 1 1 10 9 sampleStatusDB) 1 1 =
            some ⟨if 10 = sampleStatusChannel.participant1 then sampleStatusChannel.participant2
              else sampleStatusChannel.participant1, 9⟩))) ∧
    (9 < 7 →
      monitor_new_balance_proof_event_handler 1 1 9 50 11 99 sampleStatusDB =
        some sampleStatusDB) ∧
    (7 ≤ 9 → ∀ db',
      monitor_new_balance_proof_event_handler 1 1 9 50 11 99 sampleStatusDB = some db' →
        channel_update_status db' 1 1 = some ⟨50, 9⟩) ∧
    (7 ≤ 9 → 50 ≠ 99 →
      ∃ db', monitor_new_balance_proof_event_handler 1 1 9 50 11 99 sampleStatusDB = some db' ∧
        channel_update_status db' 1 1 = some ⟨50, 9⟩)) :=
  ⟨⟨by decide, by decide⟩,
    nonce_check_strict_vs_nonstrict sampleStatusDB 1 1 10 9 50 11 99 sampleStatusChannel
      ⟨11, 7⟩ (by decide) (by decide)⟩

/-- Claim C5: a MonitorNewBalanceProof event that passes the nonce check and
whose `ms_address` equals the monitoring service's own address upserts a
CLAIM_REWARD scheduled action with trigger block
`closing_block + settle_timeout + 5`, targeting the event's raiden node
address. -/
theorem mnbp_schedules_claim_reward
    (db : MSDB) (tna cid nonce ms raiden our cb : Nat) (ch : Channel)
    (hch : get_channel db tna cid = some ch)
    (hms : ms = our)
    (hcb : ch.closing_block = some cb)
    (hnonce : ∀ s, ch.update_status = some s → s.nonce ≤ nonce) :
    ∃ db', monitor_new_balance_proof_event_handler tna cid nonce ms raiden our db = some db' ∧
      claim_reward_action_for tna cid raiden cb ch ∈ db'.scheduled_events := by
  obtain ⟨htna, hcid⟩ := get_channel_key hch
  cases hs : ch.update_status with
  | none =>
      rw [mnbp_result_none db tna cid nonce ms raiden our ch hch hs, if_pos hms, hcb,
        htna, hcid]
      exact ⟨_, rfl, mem_upsert_scheduled.mpr (Or.inr rfl)⟩
  | some s =>
      have hlt : ¬ nonce < s.nonce := by
        have := hnonce s hs
        omega
      rw [mnbp_result db tna cid nonce ms raiden our ch s hch hs, if_neg hlt, if_pos hms,
        hcb, htna, hcid]
      exact ⟨_, rfl, mem_upsert_scheduled.mpr (Or.inr rfl)⟩

/-- Claim C5 (witness): on `sampleClaimDB` (channel closed at block 150 with
settle timeout 20, stored nonce 5), our own MonitorNewBalanceProof with
nonce 5 for raiden node 11 schedules the CLAIM_REWARD action at block 175. -/
theorem mnbp_schedules_claim_reward_witness :
    (get_channel sampleClaimDB 1 1 = some sampleClaimChannel ∧
      sampleClaimChannel.closing_block = some 150) ∧
    ∃ db', monitor_new_balance_proof_event_handler 1 1 5 99 11 99 sampleClaimDB = some db' ∧
      claim_reward_action_for 1 1 11 150 sampleClaimChannel ∈ db'.scheduled_events :=
  ⟨⟨by decide, by decide⟩,
    mnbp_schedules_claim_reward sampleClaimDB 1 1 5 99 11 99 150 sampleClaimChannel
      (by decide) rfl rfl
      (by
        intro s hs
        rw [show sampleClaimChannel.update_status = some ⟨99, 5⟩ from rfl] at hs
        injection hs with h
        rw [← h])⟩

theorem cus_of_upsert (db : MSDB) (c : Channel) (tna cid : Nat) :
    channel_update_status (upsert_channel db c) tna cid =
      if c.token_network_address = tna ∧ c.identifier = cid then c.update_status
      else channel_update_status db tna cid := by
  by_cases h : c.token_network_address = tna ∧ c.identifier = cid
  · rw [if_pos h]
    obtain ⟨h1, h2⟩ := h
    rw [← h1, ← h2, channel_update_status_upsert_self]
  · rw [if_neg h]
    unfold channel_update_status
    rw [get_channel_upsert_ne db c tna cid h]

/-- Upserting a channel fetched from `db` (same identity, `update_status`
nonce not decreased) into a database `dbm` with the same channel view
preserves a nonce lower bound. -/
theorem cus_upsert_step (db dbm : MSDB) (tna cid tna' cid' n : Nat) (ch ch' : Channel)
    (hch : get_channel db tna' cid' = some ch)
    (hkey : ch'.token_network_address = ch.token_network_address ∧
      ch'.identifier = ch.identifier)
    (hge : ∀ s, ch.update_status = some s →
      ∃ s', ch'.update_status = some s' ∧ s.nonce ≤ s'.nonce)
    (hm : channel_update_status dbm tna cid = channel_update_status db tna cid)
    (hlb : ∃ s, channel_update_status db tna cid = some s ∧ n ≤ s.nonce) :
    ∃ s', channel_update_status (upsert_channel dbm ch') tna cid = some s' ∧
      n ≤ s'.nonce := by
  obtain ⟨s, hs, hn⟩ := hlb
  rw [cus_of_upsert]
  by_cases hk : ch'.token_network_address = tna ∧ ch'.identifier = cid
  · obtain ⟨hc1, hc2⟩ := get_channel_key hch
    have htt : tna' = tna := by rw [← hc1, ← hkey.1, hk.1]
    have hcc : cid' = cid := by rw [← hc2, ← hkey.2, hk.2]
    have hcus : channel_update_status db tna cid = ch.update_status := by
      unfold channel_update_status
      rw [← htt, ← hcc, hch]
    rw [hcus] at hs
    obtain ⟨s', hs', hle⟩ := hge s hs
    rw [if_pos hk]
    exact ⟨s', hs', le_trans hn hle⟩
  · rw [if_neg hk, hm]
    exact ⟨s, hs, hn⟩

/-- Whether an event is a ChannelOpened event for the given channel identity. -/
def opens_channel (e : MSEvent) (tna cid : Nat) : Bool :=
  match e with
  | MSEvent.chOpened tna' cid' _ _ _ => decide (tna' = tna ∧ cid' = cid)
  | _ => false

/-- One processed event that does not re-open the channel `(tna, cid)` keeps
any lower bound on that channel's `update_status` nonce. -/
theorem step_nonce_lower_bound (our tna cid n : Nat) (e : MSEvent) (db db' : MSDB)
    (hne : opens_channel e tna cid = false)
    (hstep : processEvent our db e = some db')
    (hlb : ∃ s, channel_update_status db tna cid = some s ∧ n ≤ s.nonce) :
    ∃ s', channel_update_status db' tna cid = some s' ∧ n ≤ s'.nonce := by
  cases e with
  | chOpened tna' cid' p1 p2 st =>
      have hne' : ¬(tna' = tna ∧ cid' = cid) := by simpa [opens_channel] using hne
      simp only [processEvent, Option.some.injEq] at hstep
      subst hstep
      obtain ⟨s, hs, hn⟩ := hlb
      refine ⟨s, ?_, hn⟩
      unfold channel_opened_event_handler
      rw [cus_of_upsert]
      simpa [hne'] using hs
  | chClosed tna' cid' closing bn lk =>
      simp only [processEvent, Option.some.injEq] at hstep
      subst hstep
      unfold channel_closed_event_handler
      cases hch : get_channel db tna' cid' with
      | none => exact hlb
      | some ch =>
          dsimp only
          refine cus_upsert_step db _ tna cid tna' cid' n ch _ hch ⟨rfl, rfl⟩ ?_ ?_ hlb
          · intro s hs
            exact ⟨s, hs, le_refl _⟩
          · by_cases hover : bn + ch.settle_timeout < lk
            · rw [if_pos hover]
            · rw [if_neg hover, channel_update_status_upsert_scheduled]
  | bpUpdated tna' cid' closing nonce =>
      simp only [processEvent, Option.some.injEq] at hstep
      subst hstep
      unfold non_closing_balance_proof_updated_event_handler
      cases hch : get_channel db tna' cid' with
      | none => exact hlb
      | some ch =>
          dsimp only
          by_cases h1 : closing = ch.participant1
          · rw [if_pos h1]
            cases hs0 : ch.update_status with
            | none =>
                dsimp only
                refine cus_upsert_step db db tna cid tna' cid' n ch _ hch ⟨rfl, rfl⟩ ?_ rfl hlb
                intro s hs
                rw [hs0] at hs
                cases hs
            | some status =>
                dsimp only
                by_cases hle : nonce ≤ status.nonce
                · rw [if_pos hle]
                  exact hlb
                · rw [if_neg hle]
                  refine cus_upsert_step db db tna cid tna' cid' n ch _ hch ⟨rfl, rfl⟩ ?_ rfl hlb
                  intro s hs
                  rw [hs0] at hs
                  injection hs with he
                  refine ⟨⟨ch.participant2, nonce⟩, rfl, ?_⟩
                  rw [← he]
                  show status.nonce ≤ nonce
                  omega
          · rw [if_neg h1]
            by_cases h2 : closing = ch.participant2
            · rw [if_pos h2]
              cases hs0 : ch.update_status with
              | none =>
                  dsimp only
                  refine cus_upsert_step db db tna cid tna' cid' n ch _ hch ⟨rfl, rfl⟩ ?_ rfl hlb
                  intro s hs
                  rw [hs0] at hs
                  cases hs
              | some status =>
                  dsimp only
                  by_cases hle : nonce ≤ status.nonce
                  · rw [if_pos hle]
                    exact hlb
                  · rw [if_neg hle]
                    refine cus_upsert_step db db tna cid tna' cid' n ch _ hch ⟨rfl, rfl⟩ ?_ rfl hlb
                    intro s hs
                    rw [hs0] at hs
                    injection hs with he
                    refine ⟨⟨ch.participant1, nonce⟩, rfl, ?_⟩
                    rw [← he]
                    show status.nonce ≤ nonce
                    omega
            · rw [if_neg h2]
              exact hlb
  | chSettled tna' cid' =>
      simp only [processEvent, Option.some.injEq] at hstep
      subst hstep
      unfold channel_settled_event_handler
      cases hch : get_channel db tna' cid' with
      | none => exact hlb
      | some ch =>
          dsimp only
          refine cus_upsert_step db db tna cid tna' cid' n ch _ hch ⟨rfl, rfl⟩ ?_ rfl hlb
          intro s hs
          exact ⟨s, hs, le_refl _⟩
  | newBalanceProof tna' cid' nonce ms raiden =>
      simp only [processEvent] at hstep
      cases hch : get_channel db tna' cid' with
      | none =>
          unfold monitor_new_balance_proof_event_handler at hstep
          rw [hch] at hstep
          simp only [Option.some.injEq] at hstep
          subst hstep
          exact hlb
      | some ch =>
          cases hs0 : ch.update_status with
          | none =>
              rw [mnbp_result_none db tna' cid' nonce ms raiden our ch hch hs0] at hstep
              by_cases hms : ms = our
              · rw [if_pos hms] at hstep
                cases hcb : ch.closing_block with
                | none =>
                    rw [hcb] at hstep
                    exact absurd hstep (by simp)
                | some cb =>
                    rw [hcb] at hstep
                    simp only [Option.some.injEq] at hstep
                    subst hstep
                    rw [channel_update_status_upsert_scheduled]
                    refine cus_upsert_step db db tna cid tna' cid' n ch _ hch ⟨rfl, rfl⟩ ?_ rfl hlb
                    intro s hs
                    rw [hs0] at hs
                    cases hs
              · rw [if_neg hms] at hstep
                simp only [Option.some.injEq] at hstep
                subst hstep
                refine cus_upsert_step db db tna cid tna' cid' n ch _ hch ⟨rfl, rfl⟩ ?_ rfl hlb
                intro s hs
                rw [hs0] at hs
                cases hs
          | some status =>
              rw [mnbp_result db tna' cid' nonce ms raiden our ch status hch hs0] at hstep
              by_cases hlt : nonce < status.nonce
              · rw [if_pos hlt] at hstep
                simp only [Option.some.injEq] at hstep
                subst hstep
                exact hlb
              · rw [if_neg hlt] at hstep
                by_cases hms : ms = our
                · rw [if_pos hms] at hstep
                  cases hcb : ch.closing_block with
                  | none =>
                      rw [hcb] at hstep
                      exact absurd hstep (by simp)
                  | some cb =>
                      rw [hcb] at hstep
                      simp only [Option.some.injEq] at hstep
                      subst hstep
                      rw [channel_update_status_upsert_scheduled]
                      refine cus_upsert_step db db tna cid tna' cid' n ch _ hch ⟨rfl, rfl⟩
                        ?_ rfl hlb
                      intro s hs
                      rw [hs0] at hs
                      injection hs with he
                      refine ⟨⟨ms, nonce⟩, rfl, ?_⟩
                      rw [← he]
                      show status.nonce ≤ nonce
                      omega
                · rw [if_neg hms] at hstep
                  simp only [Option.some.injEq] at hstep
                  subst hstep
                  refine cus_upsert_step db db tna cid tna' cid' n ch _ hch ⟨rfl, rfl⟩ ?_ rfl hlb
                  intro s hs
                  rw [hs0] at hs
                  injection hs with he
                  refine ⟨⟨ms, nonce⟩, rfl, ?_⟩
                  rw [← he]
                  show status.nonce ≤ nonce
                  omega
  | rewardClaimed =>
      simp only [processEvent, Option.some.injEq] at hstep
      subst hstep
      exact hlb
  | headBlock bn =>
      simp only [processEvent, Option.some.injEq] at hstep
      subst hstep
      exact hlb
  | actMonitor tna' cid' np mr ud tx =>
      simp only [processEvent, Option.some.injEq] at hstep
      subst hstep
      unfold action_monitoring_triggered_event_handler
      cases hmr : get_monitor_request db tna' cid' np with
      | none => exact hlb
      | some mreq =>
          dsimp only
          cases hch : get_channel db mreq.token_network_address
              mreq.channel_identifier with
          | none => exact hlb
          | some ch =>
              dsimp only
              split
              · exact hlb
              · split
                · cases tx with
                  | none => exact hlb
                  | some txh =>
                      dsimp only
                      refine cus_upsert_step db _ tna cid mreq.token_network_address
                        mreq.channel_identifier n ch _ hch ⟨rfl, rfl⟩ ?_ rfl hlb
                      intro s hs
                      exact ⟨s, hs, le_refl _⟩
                · exact hlb
  | actClaim tna' cid' np tx =>
      simp only [processEvent, Option.some.injEq] at hstep
      subst hstep
      unfold action_claim_reward_triggered_event_handler
      cases hmr : get_monitor_request db tna' cid' np with
      | none => exact hlb
      | some mreq =>
          dsimp only
          cases hch : get_channel db mreq.token_network_address
              mreq.channel_identifier with
          | none => exact hlb
          | some ch =>
              dsimp only
              split
              · cases tx with
                | none => exact hlb
                | some txh =>
                    dsimp only
                    refine cus_upsert_step db _ tna cid mreq.token_network_address
                      mreq.channel_identifier n ch _ hch ⟨rfl, rfl⟩ ?_ rfl hlb
                    intro s hs
                    exact ⟨s, hs, le_refl _⟩
              · exact hlb

theorem processEvents_nonce_lower_bound (our tna cid n : Nat) (events : List MSEvent) :
    ∀ db db', (∀ e ∈ events, opens_channel e tna cid = false) →
      processEvents our db events = some db' →
      (∃ s, channel_update_status db tna cid = some s ∧ n ≤ s.nonce) →
      ∃ s', channel_update_status db' tna cid = some s' ∧ n ≤ s'.nonce := by
  induction events with
  | nil =>
      intro db db' _ hrun hlb
      simp only [processEvents, Option.some.injEq] at hrun
      subst hrun
      exact hlb
  | cons e es ih =>
      intro db db' hno hrun hlb
      simp only [processEvents] at hrun
      cases hstep : processEvent our db e with
      | none =>
          rw [hstep] at hrun
          cases hrun
      | some db1 =>
          rw [hstep] at hrun
          have hne : opens_channel e tna cid = false := hno e (List.mem_cons_self e es)
          have hlb1 := step_nonce_lower_bound our tna cid n e db db1 hne hstep hlb
          exact ih db1 db' (fun e' he' => hno e' (List.mem_cons_of_mem e he')) hrun hlb1

/-- Claim C3 (amended): along any processed event sequence that contains no
ChannelOpened event re-creating the channel `(tna, cid)`, that channel's
stored `update_status.nonce` never decreases: each handler leaves it
unchanged or raises it. -/
theorem update_status_nonce_monotone
    (our tna cid : Nat) (events : List MSEvent) (db db' : MSDB)
    (s s' : OnChainUpdateStatus)
    (hno : ∀ e ∈ events, opens_channel e tna cid = false)
    (hrun : processEvents our db events = some db')
    (hs : channel_update_status db tna cid = some s)
    (hs' : channel_update_status db' tna cid = some s') :
    s.nonce ≤ s'.nonce := by
  obtain ⟨s'', hs'', hn⟩ :=
    processEvents_nonce_lower_bound our tna cid s.nonce events db db' hno hrun
      ⟨s, hs, le_refl _⟩
  rw [hs''] at hs'
  injection hs' with h
  rw [← h]
  exact hn

/-- The channel's stored nonce after processing a run of events, when both the
run and the channel lookup succeed. -/
def run_update_nonce (our : Nat) (db : MSDB) (events : List MSEvent) (tna cid : Nat) :
    Option Nat :=
  match processEvents our db events with
  | some db' =>
      match channel_update_status db' tna cid with
      | some s => some s.nonce
      | none => none
  | none => none

/-- Claim C3 (counterexample): a duplicate ChannelOpened event re-creates the
channel with `update_status` cleared, after which a fresh balance-proof update
stores nonce 2 although nonce 7 had been stored before: the stored nonce
decreases across the processed sequence. -/
theorem update_status_nonce_regresses_after_reopen :
    run_update_nonce 99 emptyDB
        [MSEvent.chOpened 1 1 10 11 20, MSEvent.bpUpdated 1 1 10 7] 1 1 = some 7 ∧
    run_update_nonce 99 emptyDB
        [MSEvent.chOpened 1 1 10 11 20, MSEvent.bpUpdated 1 1 10 7,
          MSEvent.chOpened 1 1 10 11 20, MSEvent.bpUpdated 1 1 10 2] 1 1 = some 2 ∧
    (2 : Nat) < 7 := by
  decide

/-- Claim C3 (witness): processing a balance-proof update with nonce 9 on
`sampleStatusDB` (stored nonce 7) keeps the nonce non-decreasing: 7 ≤ 9. -/
theorem update_status_nonce_monotone_witness :
    ((∀ e ∈ [MSEvent.bpUpdated 1 1 10 9], opens_channel e 1 1 = false) ∧
      processEvents 99 sampleStatusDB [MSEvent.bpUpdated 1 1 10 9] =
        some { sampleStatusDB with
                channels := [{ sampleStatusChannel with update_status := some ⟨11, 9⟩ }] } ∧
      channel_update_status sampleStatusDB 1 1 = some ⟨11, 7⟩) ∧
    (7 : Nat) ≤ 9 :=
  ⟨⟨by decide, by decide, by decide⟩,
    update_status_nonce_monotone 99 1 1 [MSEvent.bpUpdated 1 1 10 9] sampleStatusDB
      { sampleStatusDB with
        channels := [{ sampleStatusChannel with update_status := some ⟨11, 9⟩ }] }
      ⟨11, 7⟩ ⟨11, 9⟩ (by decide) (by decide) (by decide) (by decide)⟩

/-- Invariant I2 for one channel: `closing_block` is set iff the state is
CLOSED or SETTLED. -/
def ChanInv (c : Channel) : Prop :=
  c.closing_block ≠ none ↔ (c.state = ChannelState.CLOSED ∨ c.state = ChannelState.SETTLED)

instance (c : Channel) : Decidable (ChanInv c) := by
  unfold ChanInv
  infer_instance

/-- Invariant I2 for the whole database. -/
def DBInv (db : MSDB) : Prop :=
  ∀ c ∈ db.channels, ChanInv c

instance (db : MSDB) : Decidable (DBInv db) := by
  unfold DBInv
  infer_instance

theorem dbinv_upsert (db : MSDB) (c : Channel) (hinv : DBInv db) (hc : ChanInv c) :
    DBInv (upsert_channel db c) := by
  intro c' hc'
  rcases mem_upsertChannelList hc' with h | h
  · rw [h]
    exact hc
  · exact hinv c' h

theorem dbinv_upsert_scheduled (db : MSDB) (se : ScheduledEvent) (hinv : DBInv db) :
    DBInv (upsert_scheduled_event db se) := by
  intro c hc
  rw [channels_upsert_scheduled] at hc
  exact hinv c hc

/-- The per-step side condition of invariant I2: a ChannelSettled event may
only target a channel that is CLOSED (as on-chain event ordering guarantees);
all other events are unrestricted. -/
def settled_ok (db : MSDB) (e : MSEvent) : Bool :=
  match e with
  | MSEvent.chSettled tna cid =>
      match get_channel db tna cid with
      | some c => decide (c.state = ChannelState.CLOSED)
      | none => true
  | _ => true

/-- `settled_ok` holds at every step along the run. -/
def settledGuard (our : Nat) : MSDB → List MSEvent → Bool
  | _, [] => true
  | db, e :: es =>
      settled_ok db e &&
        match processEvent our db e with
        | some db1 => settledGuard our db1 es
        | none => true

theorem step_preserves_closing_inv (our : Nat) (e : MSEvent) (db db' : MSDB)
    (hok : settled_ok db e = true)
    (hstep : processEvent our db e = some db')
    (hinv : DBInv db) : DBInv db' := by
  cases e with
  | chOpened tna' cid' p1 p2 st =>
      simp only [processEvent, Option.some.injEq] at hstep
      subst hstep
      exact dbinv_upsert db _ hinv (by simp [ChanInv])
  | chClosed tna' cid' closing bn lk =>
      simp only [processEvent, Option.some.injEq] at hstep
      subst hstep
      unfold channel_closed_event_handler
      cases hch : get_channel db tna' cid' with
      | none => exact hinv
      | some ch =>
          dsimp only
          refine dbinv_upsert _ _ ?_ (by simp [ChanInv])
          by_cases hover : bn + ch.settle_timeout < lk
          · rw [if_pos hover]
            exact hinv
          · rw [if_neg hover]
            exact dbinv_upsert_scheduled _ _ hinv
  | bpUpdated tna' cid' closing nonce =>
      simp only [processEvent, Option.some.injEq] at hstep
      subst hstep
      unfold non_closing_balance_proof_updated_event_handler
      cases hch : get_channel db tna' cid' with
      | none => exact hinv
      | some ch =>
          have hc := hinv ch (get_channel_mem hch)
          dsimp only
          by_cases h1 : closing = ch.participant1
          · rw [if_pos h1]
            cases hs0 : ch.update_status with
            | none => exact dbinv_upsert db _ hinv hc
            | some status =>
                dsimp only
                by_cases hle : nonce ≤ status.nonce
                · rw [if_pos hle]
                  exact hinv
                · rw [if_neg hle]
                  exact dbinv_upsert db _ hinv hc
          · rw [if_neg h1]
            by_cases h2 : closing = ch.participant2
            · rw [if_pos h2]
              cases hs0 : ch.update_status with
              | none => exact dbinv_upsert db _ hinv hc
              | some status =>
                  dsimp only
                  by_cases hle : nonce ≤ status.nonce
                  · rw [if_pos hle]
                    exact hinv
                  · rw [if_neg hle]
                    exact dbinv_upsert db _ hinv hc
            · rw [if_neg h2]
              exact hinv
  | chSettled tna' cid' =>
      simp only [processEvent, Option.some.injEq] at hstep
      subst hstep
      unfold channel_settled_event_handler
      cases hch : get_channel db tna' cid' with
      | none => exact hinv
      | some ch =>
          dsimp only
          have hmem := get_channel_mem hch
          have hcl : ch.state = ChannelState.CLOSED := by
            simp only [settled_ok] at hok
            rw [hch] at hok
            exact of_decide_eq_true hok
          refine dbinv_upsert db _ hinv ?_
          exact ⟨fun _ => Or.inr rfl, fun _ => (hinv ch hmem).mpr (Or.inl hcl)⟩
  | newBalanceProof tna' cid' nonce ms raiden =>
      simp only [processEvent] at hstep
      cases hch : get_channel db tna' cid' with
      | none =>
          unfold monitor_new_balance_proof_event_handler at hstep
          rw [hch] at hstep
          simp only [Option.some.injEq] at hstep
          subst hstep
          exact hinv
      | some ch =>
          have hc := hinv ch (get_channel_mem hch)
          cases hs0 : ch.update_status with
          | none =>
              rw [mnbp_result_none db tna' cid' nonce ms raiden our ch hch hs0] at hstep
              by_cases hms : ms = our
              · rw [if_pos hms] at hstep
                cases hcb : ch.closing_block with
                | none =>
                    rw [hcb] at hstep
                    exact absurd hstep (by simp)
                | some cb =>
                    rw [hcb] at hstep
                    simp only [Option.some.injEq] at hstep
                    subst hstep
                    unfold ChanInv at hc
                    rw [hcb] at hc
                    exact dbinv_upsert_scheduled _ _ (dbinv_upsert db _ hinv hc)
              · rw [if_neg hms] at hstep
                simp only [Option.some.injEq] at hstep
                subst hstep
                exact dbinv_upsert db _ hinv hc
          | some status =>
              rw [mnbp_result db tna' cid' nonce ms raiden our ch status hch hs0] at hstep
              by_cases hlt : nonce < status.nonce
              · rw [if_pos hlt] at hstep
                simp only [Option.some.injEq] at hstep
                subst hstep
                exact hinv
              · rw [if_neg hlt] at hstep
                by_cases hms : ms = our
                · rw [if_pos hms] at hstep
                  cases hcb : ch.closing_block with
                  | none =>
                      rw [hcb] at hstep
                      exact absurd hstep (by simp)
                  | some cb =>
                      rw [hcb] at hstep
                      simp only [Option.some.injEq] at hstep
                      subst hstep
                      unfold ChanInv at hc
                      rw [hcb] at hc
                      exact dbinv_upsert_scheduled _ _ (dbinv_upsert db _ hinv hc)
                · rw [if_neg hms] at hstep
                  simp only [Option.some.injEq] at hstep
                  subst hstep
                  exact dbinv_upsert db _ hinv hc
  | rewardClaimed =>
      simp only [processEvent, Option.some.injEq] at hstep
      subst hstep
      exact hinv
  | headBlock bn =>
      simp only [processEvent, Option.some.injEq] at hstep
      subst hstep
      exact hinv
  | actMonitor tna' cid' np mr ud tx =>
      simp only [processEvent, Option.some.injEq] at hstep
      subst hstep
      unfold action_monitoring_triggered_event_handler
      cases hmr : get_monitor_request db tna' cid' np with
      | none => exact hinv
      | some mreq =>
          dsimp only
          cases hch : get_channel db mreq.token_network_address
              mreq.channel_identifier with
          | none => exact hinv
          | some ch =>
              have hc := hinv ch (get_channel_mem hch)
              dsimp only
              split
              · exact hinv
              · split
                · cases tx with
                  | none => exact hinv
                  | some txh =>
                      dsimp only
                      refine dbinv_upsert _ _ ?_ hc
                      intro c hcm
                      exact hinv c hcm
                · exact hinv
  | actClaim tna' cid' np tx =>
      simp only [processEvent, Option.some.injEq] at hstep
      subst hstep
      unfold action_claim_reward_triggered_event_handler
      cases hmr : get_monitor_request db tna' cid' np with
      | none => exact hinv
      | some mreq =>
          dsimp only
          cases hch : get_channel db mreq.token_network_address
              mreq.channel_identifier with
          | none => exact hinv
          | some ch =>
              have hc := hinv ch (get_channel_mem hch)
              dsimp only
              split
              · cases tx with
                | none => exact hinv
                | some txh =>
                    dsimp only
                    refine dbinv_upsert _ _ ?_ hc
                    intro c hcm
                    exact hinv c hcm
              · exact hinv

theorem processEvents_preserves_closing_inv (our : Nat) (events : List MSEvent) :
    ∀ db db', DBInv db → settledGuard our db events = true →
      processEvents our db events = some db' → DBInv db' := by
  induction events with
  | nil =>
      intro db db' hinv _ hrun
      simp only [processEvents, Option.some.injEq] at hrun
      subst hrun
      exact hinv
  | cons e es ih =>
      intro db db' hinv hguard hrun
      simp only [processEvents] at hrun
      simp only [settledGuard, Bool.and_eq_true] at hguard
      obtain ⟨hok, hguard'⟩ := hguard
      cases hstep : processEvent our db e with
      | none =>
          rw [hstep] at hrun
          cases hrun
      | some db1 =>
          rw [hstep] at hrun
          rw [hstep] at hguard'
          exact ih db1 db' (step_preserves_closing_inv our e db db1 hok hstep hinv)
            hguard' hrun

/-- Claim C8 (amended): starting from any database satisfying invariant I2
(`closing_block` set iff state CLOSED or SETTLED; the empty initial state
does), any processed event sequence in which every ChannelSettled event
targets a channel that is already CLOSED preserves the invariant for every
channel. -/
theorem closing_block_iff_closed_invariant (our : Nat) (events : List MSEvent)
    (db db' : MSDB) (hinv : DBInv db) (hguard : settledGuard our db events = true)
    (hrun : processEvents our db events = some db') : DBInv db' :=
  processEvents_preserves_closing_inv our events db db' hinv hguard hrun

/-- `sampleOpenChannel` settled without ever having been closed: its state is
SETTLED while `closing_block` is unset. -/
def sampleEarlySettledDB : MSDB :=
  { channels := [{ sampleOpenChannel with state := ChannelState.SETTLED }]
    monitor_requests := []
    scheduled_events := []
    waiting_transactions := []
    latest_known_block := 0 }

/-- Claim C8 (counterexample): processing ChannelSettled directly after
ChannelOpened (no ChannelClosed in between) reaches a state whose channel is
SETTLED with `closing_block` unset, violating the claimed equivalence. -/
theorem closing_block_invariant_violated_by_early_settle :
    processEvents 99 emptyDB [MSEvent.chOpened 1 1 10 11 20, MSEvent.chSettled 1 1] =
      some sampleEarlySettledDB ∧ ¬ DBInv sampleEarlySettledDB :=
  ⟨by decide, by decide⟩

/-- `sampleOpenChannel` closed at block 150 by participant 10 and then
settled, with the MONITOR action scheduled at block 166. -/
def sampleSettledRunDB : MSDB :=
  { channels := [{ sampleOpenChannel with
        state := ChannelState.SETTLED
        closing_block := some 150
        closing_participant := some 10 }]
    monitor_requests := []
    scheduled_events := [monitor_action_for 1 1 10 150 sampleOpenChannel]
    waiting_transactions := []
    latest_known_block := 0 }

/-- Claim C8 (witness): the run open-close-settle from the empty database
satisfies the guard and ends in a state where every channel satisfies
invariant I2. -/
theorem closing_block_iff_closed_invariant_witness :
    (DBInv emptyDB ∧
      settledGuard 99 emptyDB
          [MSEvent.chOpened 1 1 10 11 20, MSEvent.chClosed 1 1 10 150 150,
            MSEvent.chSettled 1 1] = true ∧
      processEvents 99 emptyDB
          [MSEvent.chOpened 1 1 10 11 20, MSEvent.chClosed 1 1 10 150 150,
            MSEvent.chSettled 1 1] = some sampleSettledRunDB) ∧
    DBInv sampleSettledRunDB :=
  ⟨⟨by decide, by decide, by decide⟩,
    closing_block_iff_closed_invariant 99
      [MSEvent.chOpened 1 1 10 11 20, MSEvent.chClosed 1 1 10 150 150,
        MSEvent.chSettled 1 1]
      emptyDB sampleSettledRunDB (by decide) (by decide) (by decide)⟩

/-- Every handler either leaves `latest_known_block` unchanged or, for an
UpdatedHeadBlock event, sets it to the event's head block number. -/
theorem processEvent_latest (our : Nat) (e : MSEvent) (db db' : MSDB)
    (hstep : processEvent our db e = some db') :
    db'.latest_known_block = db.latest_known_block ∨
      ∃ bn, e = MSEvent.headBlock bn ∧ db'.latest_known_block = bn := by
  cases e with
  | headBlock bn =>
      simp only [processEvent, Option.some.injEq] at hstep
      subst hstep
      exact Or.inr ⟨bn, rfl, rfl⟩
  | chOpened tna' cid' p1 p2 st =>
      simp only [processEvent, Option.some.injEq] at hstep
      subst hstep
      exact Or.inl rfl
  | chClosed tna' cid' closing bn lk =>
      simp only [processEvent, Option.some.injEq] at hstep
      subst hstep
      left
      unfold channel_closed_event_handler
      repeat' split
      all_goals
        simp only [latest_upsert_channel, latest_upsert_scheduled, latest_add_waiting]
      all_goals repeat' split
      all_goals
        simp only [latest_upsert_scheduled]
  | bpUpdated tna' cid' closing nonce =>
      simp only [processEvent, Option.some.injEq] at hstep
      subst hstep
      left
      unfold non_closing_balance_proof_updated_event_handler
      repeat' split
      all_goals
        simp only [latest_upsert_channel, latest_upsert_scheduled, latest_add_waiting]
  | chSettled tna' cid' =>
      simp only [processEvent, Option.some.injEq] at hstep
      subst hstep
      left
      unfold channel_settled_event_handler
      repeat' split
      all_goals
        simp only [latest_upsert_channel, latest_upsert_scheduled, latest_add_waiting]
  | newBalanceProof tna' cid' nonce ms raiden =>
      simp only [processEvent] at hstep
      unfold monitor_new_balance_proof_event_handler at hstep
      dsimp only at hstep
      repeat' split at hstep
      all_goals
        first
          | exact Option.noConfusion hstep
          | (simp only [Option.some.injEq] at hstep
             subst hstep
             left
             simp only [latest_upsert_channel, latest_upsert_scheduled, latest_add_waiting])
  | rewardClaimed =>
      simp only [processEvent, Option.some.injEq] at hstep
      subst hstep
      exact Or.inl rfl
  | actMonitor tna' cid' np mr ud tx =>
      simp only [processEvent, Option.some.injEq] at hstep
      subst hstep
      left
      unfold action_monitoring_triggered_event_handler
      cases hmr : get_monitor_request db tna' cid' np with
      | none => rfl
      | some mreq =>
          dsimp only
          cases hch : get_channel db mreq.token_network_address
              mreq.channel_identifier with
          | none => rfl
          | some ch =>
              dsimp only
              split
              · rfl
              · split
                · cases tx with
                  | none => rfl
                  | some txh => rfl
                · rfl
  | actClaim tna' cid' np tx =>
      simp only [processEvent, Option.some.injEq] at hstep
      subst hstep
      left
      unfold action_claim_reward_triggered_event_handler
      cases hmr : get_monitor_request db tna' cid' np with
      | none => rfl
      | some mreq =>
          dsimp only
          cases hch : get_channel db mreq.token_network_address
              mreq.channel_identifier with
          | none => rfl
          | some ch =>
              dsimp only
              split
              · cases tx with
                | none => rfl
                | some txh => rfl
              · rfl

/-- The per-step side condition of invariant I5: an UpdatedHeadBlock event may
not carry a block number below the current `latest_known_block` (the event
loop polls forward from the cursor); all other events are unrestricted. -/
def head_ok (db : MSDB) (e : MSEvent) : Bool :=
  match e with
  | MSEvent.headBlock bn => decide (db.latest_known_block ≤ bn)
  | _ => true

/-- `head_ok` holds at every step along the run. -/
def headGuard (our : Nat) : MSDB → List MSEvent → Bool
  | _, [] => true
  | db, e :: es =>
      head_ok db e &&
        match processEvent our db e with
        | some db1 => headGuard our db1 es
        | none => true

theorem step_latest_mono (our : Nat) (e : MSEvent) (db db' : MSDB)
    (hok : head_ok db e = true)
    (hstep : processEvent our db e = some db') :
    db.latest_known_block ≤ db'.latest_known_block := by
  rcases processEvent_latest our e db db' hstep with h | ⟨bn, he, h⟩
  · rw [h]
  · subst he
    simp only [head_ok] at hok
    rw [h]
    exact of_decide_eq_true hok

/-- Claim C9 (amended): along any processed event sequence whose
UpdatedHeadBlock events never carry a block number below the current
`latest_known_block` (as the forward-polling event loop guarantees), the
persisted `latest_known_block` never decreases; every other handler leaves it
unchanged. -/
theorem latest_known_block_monotone (our : Nat) (events : List MSEvent) :
    ∀ db db', headGuard our db events = true →
      processEvents our db events = some db' →
      db.latest_known_block ≤ db'.latest_known_block := by
  induction events with
  | nil =>
      intro db db' _ hrun
      simp only [processEvents, Option.some.injEq] at hrun
      subst hrun
      exact le_refl _
  | cons e es ih =>
      intro db db' hguard hrun
      simp only [processEvents] at hrun
      simp only [headGuard, Bool.and_eq_true] at hguard
      obtain ⟨hok, hguard'⟩ := hguard
      cases hstep : processEvent our db e with
      | none =>
          rw [hstep] at hrun
          cases hrun
      | some db1 =>
          rw [hstep] at hrun
          rw [hstep] at hguard'
          exact le_trans (step_latest_mono our e db db1 hok hstep)
            (ih db1 db' hguard' hrun)

/-- The persisted `latest_known_block` after a processed run of events. -/
def run_latest_known_block (our : Nat) (db : MSDB) (events : List MSEvent) : Option Nat :=
  (processEvents our db events).map (fun db' => db'.latest_known_block)

/-- Claim C9 (counterexample): `updated_head_block_event_handler` assigns the
event's head block number unconditionally, so an UpdatedHeadBlock event with a
smaller number makes `latest_known_block` regress from 5 to 3. -/
theorem latest_known_block_regresses :
    run_latest_known_block 99 emptyDB [MSEvent.headBlock 5] = some 5 ∧
    run_latest_known_block 99 emptyDB [MSEvent.headBlock 5, MSEvent.headBlock 3] = some 3 ∧
    (3 : Nat) < 5 := by
  decide

/-- Claim C9 (witness): head blocks 5 then 7 from the empty database respect
the guard and the cursor moves from 0 to 7 without regressing. -/
theorem latest_known_block_monotone_witness :
    (headGuard 99 emptyDB [MSEvent.headBlock 5, MSEvent.headBlock 7] = true ∧
      processEvents 99 emptyDB [MSEvent.headBlock 5, MSEvent.headBlock 7] =
        some { emptyDB with latest_known_block := 7 }) ∧
    emptyDB.latest_known_block ≤
      ({ emptyDB with latest_known_block := 7 } : MSDB).latest_known_block :=
  ⟨⟨by decide, by decide⟩,
    latest_known_block_monotone 99 [MSEvent.headBlock 5, MSEvent.headBlock 7]
      emptyDB { emptyDB with latest_known_block := 7 } (by decide) (by decide)⟩

/-- Whether a dispatched event is a MonitorNewBalanceProof event. -/
def is_new_balance_proof_event : MSEvent → Bool
  | MSEvent.newBalanceProof _ _ _ _ _ => true
  | _ => false

/-- Claim C10 (amended): a MonitorNewBalanceProof event whose `ms_address`
equals the monitoring service's own address, whose channel has no
`closing_block`, and which passes the nonce check (`update_status` absent or
stored nonce ≤ event nonce) fails the `closing_block is not None` assertion
(modelled as `none`); every event of any other kind is handled without
raising, whatever the database state. -/
theorem mnbp_asserts_on_missing_closing_block
    (our tna cid nonce ms raiden : Nat) (db : MSDB) (ch : Channel)
    (hch : get_channel db tna cid = some ch)
    (hms : ms = our)
    (hcb : ch.closing_block = none)
    (hnonce : ∀ s, ch.update_status = some s → s.nonce ≤ nonce) :
    monitor_new_balance_proof_event_handler tna cid nonce ms raiden our db = none ∧
    ∀ (db2 : MSDB) (e : MSEvent), is_new_balance_proof_event e = false →
      (processEvent our db2 e).isSome = true := by
  constructor
  · cases hs : ch.update_status with
    | none =>
        rw [mnbp_result_none db tna cid nonce ms raiden our ch hch hs, if_pos hms, hcb]
    | some status =>
        have hlt : ¬ nonce < status.nonce := by
          have := hnonce status hs
          omega
        rw [mnbp_result db tna cid nonce ms raiden our ch status hch hs, if_neg hlt,
          if_pos hms, hcb]
  · intro db2 e he
    cases e with
    | chOpened tna' cid' p1 p2 st => rfl
    | chClosed tna' cid' closing bn lk => rfl
    | bpUpdated tna' cid' closing nonce' => rfl
    | chSettled tna' cid' => rfl
    | newBalanceProof tna' cid' nonce' ms' raiden' =>
        exact absurd he (by simp [is_new_balance_proof_event])
    | rewardClaimed => rfl
    | headBlock bn => rfl
    | actMonitor tna' cid' np mr ud tx => rfl
    | actClaim tna' cid' np tx => rfl

/-- Claim C10 (witness): on `sampleStatusDB` (channel never closed,
`closing_block` unset, stored nonce 7), our own MonitorNewBalanceProof with
nonce 9 raises the assertion, while a ChannelSettled event for an unknown
channel is handled without raising. -/
theorem mnbp_asserts_on_missing_closing_block_witness :
    (get_channel sampleStatusDB 1 1 = some sampleStatusChannel ∧
      sampleStatusChannel.closing_block = none) ∧
    (monitor_new_balance_proof_event_handler 1 1 9 99 11 99 sampleStatusDB = none ∧
      ∀ (db2 : MSDB) (e : MSEvent), is_new_balance_proof_event e = false →
        (processEvent 99 db2 e).isSome = true) :=
  ⟨⟨by decide, by decide⟩,
    mnbp_asserts_on_missing_closing_block 99 1 1 9 99 11 sampleStatusDB
      sampleStatusChannel (by decide) rfl rfl
      (by
        intro s hs
        rw [show sampleStatusChannel.update_status = some ⟨11, 7⟩ from rfl] at hs
        injection hs with h
        rw [← h]
        decide)⟩

/-- Claim C10 (counterexample): a MonitorNewBalanceProof event with our own
`ms_address` (99) for a channel with no `closing_block` but a stale nonce
(3 < stored 7) is dropped by the nonce check, returning the database
unchanged instead of failing the assertion. -/
theorem mnbp_stale_nonce_dropped_without_assertion :
    monitor_new_balance_proof_event_handler 1 1 3 99 11 99 sampleStatusDB =
      some sampleStatusDB ∧
    get_channel sampleStatusDB 1 1 = some sampleStatusChannel ∧
    sampleStatusChannel.closing_block = none :=
  ⟨by decide, by decide, by decide⟩

end RaidenMS
